import Mathlib

/-!
Verification of the AI research-orchestration pipeline
(plan → search → analyze → summarize → report).

The definitions below are a shallow embedding of the repository's Python
source.  External collaborators (the hosted language model, the HTTP search
provider, the URL content loader) are modelled as explicit oracle
parameters: a run of the real system corresponds to one choice of oracle
values, and theorems quantify over all such choices.  Strings are modelled
with Lean's `String`/`List Char`; Python truthiness of a string/list is
emptiness of the corresponding value.
-/

namespace Orchestra

/-! ### Filename sanitization (`ReportGeneratorAgent._sanitize_filename`) -/

/-- The character class of `re.sub(r'[<>:"/\\|?*]', "_", filename)`. -/
def isIllegal (c : Char) : Bool :=
  c = '<' || c = '>' || c = ':' || c = '"' || c = '/' || c = '\\' ||
  c = '|' || c = '?' || c = '*'

/-- Characters removed by Python's `str.strip(" .")`. -/
def isStripChar (c : Char) : Bool := c = ' ' || c = '.'

/-- The substitution `re.sub(r'[<>:"/\\|?*]', "_", s)`: replace every illegal character by `_`. -/
def replaceIllegal (l : List Char) : List Char :=
  l.map (fun c => if isIllegal c then '_' else c)

/-- Python `s.strip(" .")`: drop leading and trailing space/dot characters. -/
def stripDots (l : List Char) : List Char :=
  ((l.dropWhile isStripChar).reverse.dropWhile isStripChar).reverse

/-- The body of `ReportGeneratorAgent._sanitize_filename`, on character lists:
replace illegal characters, strip spaces/dots, truncate to 200 characters,
and fall back to the placeholder name when empty. -/
def sanitizeChars (l : List Char) : List Char :=
  let r := stripDots (replaceIllegal l)
  let t := if r.length > 200 then r.take 200 else r
  if t = [] then "research_report".toList else t

/-- The function `ReportGeneratorAgent._sanitize_filename` on strings. -/
def sanitizeFilename (s : String) : String :=
  String.mk (sanitizeChars s.data)

/-- First-seen-order deduplication: keep the first occurrence of each
element, dropping later duplicates. -/
def dedupFirstSeen : List (String × String) → List (String × String)
  | [] => []
  | k :: rest => k :: (dedupFirstSeen rest).filter (fun x => x ≠ k)

/-! ### Python JSON values (results of `json.loads`)

`PlannerAgent.plan` decodes the model response with `json.loads` and then
inspects the decoded value.  We model the decoded value as `PyJson`
(`none` standing for a `json.JSONDecodeError`), and embed the inspection
code exactly. -/

/-- A Python value produced by `json.loads`. -/
inductive PyJson where
  | null
  | boolean (b : Bool)
  | num (n : Int)
  | str (s : String)
  | arr (xs : List PyJson)
  | obj (kvs : List (String × PyJson))

/-- Python truthiness of a decoded JSON value. -/
def pyTruthy : PyJson → Bool
  | .null => false
  | .boolean b => b
  | .num n => n ≠ 0
  | .str s => s ≠ ""
  | .arr xs => !xs.isEmpty
  | .obj kvs => !kvs.isEmpty

/-- The check `isinstance(v, dict)`. -/
def pyIsDict : PyJson → Bool
  | .obj _ => true
  | _ => false

/-- The check `isinstance(v, str)`. -/
def pyIsStr : PyJson → Bool
  | .str _ => true
  | _ => false

/-- Python `dict.get`: `none` when the key is absent.  `json.loads` keeps
the last value for a duplicated key, hence the reversed lookup. -/
def pyGet (kvs : List (String × PyJson)) (key : String) : Option PyJson :=
  (kvs.reverse.find? (fun kv => kv.1 = key)).map (fun kv => kv.2)

/-- The expression `data.get(key) or []`: a missing or falsy field becomes the empty list. -/
def orEmptyList (v : Option PyJson) : PyJson :=
  match v with
  | none => .arr []
  | some w => if pyTruthy w then w else .arr []

/-- The check `all(isinstance(x, str) for x in v)`.  `none` models the `TypeError`
raised when `v` is not iterable (`None`, a bool, or a number); iterating a
string yields its characters (all `str`) and iterating a dict yields its
keys (all `str`). -/
def pyAllStr : PyJson → Option Bool
  | .str _ => some true
  | .arr xs => some (xs.all pyIsStr)
  | .obj _ => some true
  | .null => none
  | .boolean _ => none
  | .num _ => none

/-! ### `PlannerAgent.plan` -/

/-- The value of one field of the dict `PlannerAgent.plan` returns.  The
Python code can return a non-list value here (e.g. a string field passes
the `all(isinstance(x, str) ...)` check character-wise), so the field type
is `PyJson`. -/
structure PlanOut where
  research_topics : PyJson
  search_queries : PyJson
  analysis_steps : PyJson

/-- The three fixed generic steps of the default plan. -/
def defaultSteps : PyJson :=
  .arr [.str "Review the gathered materials and identify key themes.",
        .str "Compare and contrast differing viewpoints.",
        .str "Synthesize findings into a coherent explanation."]

/-- The `default_plan` value in `PlannerAgent.plan`. -/
def defaultPlan (q : String) : PlanOut :=
  ⟨.arr [.str q], .arr [.str q], defaultSteps⟩

/-- The function `PlannerAgent.plan`, as a function of the query and of the decoded
model response (`none` = `json.loads` raised).  A `TypeError` from any of
the three `all(...)` checks is caught by the surrounding `except` and
yields the default plan. -/
def plan (q : String) (parsed : Option PyJson) : PlanOut :=
  match parsed with
  | none => defaultPlan q
  | some d =>
    if pyIsDict d then
      match d with
      | .obj kvs =>
        let rt := orEmptyList (pyGet kvs "research_topics")
        let sq := orEmptyList (pyGet kvs "search_queries")
        let st := orEmptyList (pyGet kvs "analysis_steps")
        match pyAllStr rt, pyAllStr sq, pyAllStr st with
        | some brt, some bsq, some bst =>
          ⟨if brt then rt else .arr [.str q],
           if bsq then sq else .arr [.str q],
           if bst then st else defaultSteps⟩
        | _, _, _ => defaultPlan q
      | _ => defaultPlan q
    else defaultPlan q

/-! ### Search results and `WebSearchTool` -/

/-- One search-result record `{title, source, content, url}`.  The empty
string models a missing or `None` dict entry. -/
structure SearchResult where
  title : String
  source : String
  content : String
  url : String
deriving DecidableEq

/-- One structured insight `{finding, evidence, source}`. -/
structure Insight where
  finding : String
  evidence : String
  source : String
deriving DecidableEq

/-- One mock record of `WebSearchTool._mock_results`. -/
def mockResult (query : String) (i : Nat) : SearchResult :=
  { title := "Mock result " ++ toString (i + 1) ++ " for: " ++ query,
    source := "mock",
    content := "This is mocked web content snippet " ++ toString (i + 1)
      ++ " for query: " ++ query ++ ".",
    url := "https://example.com/mock/" ++ toString (i + 1) ++ "?q=" ++ query }

/-- The list built by `WebSearchTool._mock_results`. -/
def mockResults (query : String) (k : Nat) : List SearchResult :=
  (List.range k).map (mockResult query)

/-- One entry of the `organic` array of a Serper response; the empty
string models a missing or falsy field. -/
structure OrganicItem where
  title : String
  snippet : String
  link : String
  url : String
  source : String

/-- Python `a or b` on strings with `""` as the falsy case. -/
def pyOrStr (a b : String) : String := if a = "" then b else a

/-- Conversion of one organic item in `WebSearchTool.search`. -/
def convertItem (query : String) (i : OrganicItem) : SearchResult :=
  { title := pyOrStr i.title (pyOrStr i.snippet query),
    source := pyOrStr i.source "serper",
    content := pyOrStr i.snippet i.title,
    url := pyOrStr i.link i.url }

/-- Outcome of the HTTP call in `WebSearchTool.search`: either some
exception was raised (POST failure, bad status, JSON error), or a parsed
response whose `organic`/`organic_results` array is `organic`. -/
inductive HttpOutcome where
  | raises
  | returns (organic : List OrganicItem)

/-- The method `WebSearchTool.search`: mock fallback when the API key is unset or
empty, when the request raises, or when no usable results come back. -/
def webSearch (apiKey : Option String) (outcome : HttpOutcome) (query : String)
    (k : Nat) : List SearchResult :=
  match apiKey with
  | none => mockResults query (min k 3)
  | some key =>
    if key = "" then mockResults query (min k 3)
    else
      match outcome with
      | .raises => mockResults query (min k 3)
      | .returns organic =>
        let results := (organic.take k).map (convertItem query)
        if results = [] then mockResults query (min k 3) else results

/-! ### References built by `ReportGeneratorAgent.generate_report` -/

/-- The expression `str(item.get("title") or "Untitled Source")`. -/
def refTitle (r : SearchResult) : String :=
  if r.title = "" then "Untitled Source" else r.title

/-- The `(title, url)` key used for de-duplication. -/
def refKey (r : SearchResult) : String × String :=
  (refTitle r, r.url)

/-- The markdown line rendered for one reference key. -/
def refLine (k : String × String) : String :=
  if k.2 = "" then "- " ++ k.1 else "- [" ++ k.1 ++ "](" ++ k.2 ++ ")"

/-- The de-duplication loop of `generate_report`: `seen` is the set of
keys already emitted. -/
def buildRefKeys : List SearchResult → List (String × String) → List (String × String)
  | [], _ => []
  | item :: rest, seen =>
    let k := refKey item
    if k ∈ seen then buildRefKeys rest seen
    else k :: buildRefKeys rest (k :: seen)

/-- The `ref_lines` list of `generate_report`. -/
def referenceLines (results : List SearchResult) : List String :=
  (buildRefKeys results []).map refLine

/-! ### `ResearchState` (`app/state.py`) -/

/-- The shared orchestration state. -/
structure ResearchState where
  user_query : String
  research_topics : List String := []
  search_queries : List String := []
  analysis_steps : List String := []
  search_results : List SearchResult := []
  extracted_insights : List Insight := []
  search_attempts : Nat := 0
  summary : String := ""
  final_report : String := ""
  status : String := "pending"
  error : Option String := none
deriving DecidableEq

/-- The initial `ResearchState(user_query=query)`: all other fields take their
declared defaults. -/
def initState (q : String) : ResearchState := { user_query := q }

/-! ### Collaborator oracles

Each run of the real system fixes the behaviour of the hosted model, the
search provider, and the URL loader.  An `Env` value records those
behaviours; theorems quantify over all of them. -/

/-- Outcome of the `try` block that loads URL content for indexing:
either some call raised, or the loader returned documents whose
`page_content` strings are `docs` (`""` for a missing/empty one). -/
inductive IndexOutcome where
  | raises
  | loaded (docs : List String)

/-- Oracles for one run: the planner's three produced lists, the search
provider's records per (attempt, query position, query), the indexing
outcome per attempt, the analyzer model's cleaned insights per (1-based
index, result), and the summarizer/reporter model texts. -/
structure Env where
  planFields : String → List String × List String × List String
  searchFn : Nat → Nat → String → List SearchResult
  indexing : Nat → IndexOutcome
  analyzeSingle : Nat → SearchResult → List Insight
  summaryText : String → List Insight → String
  reportRaw : ResearchState → String

/-! ### Stage nodes -/

/-- The node `PlannerAgent.__call__`: stores the plan's three lists on the state.
The production of those lists from the raw model response is embedded
separately as `plan`; here their value is the oracle's. -/
def plannerNode (env : Env) (s : ResearchState) : ResearchState :=
  let p := env.planFields s.user_query
  { s with research_topics := p.1, search_queries := p.2.1, analysis_steps := p.2.2 }

/-- The loop of `WebSearchAgent.run_searches`: one provider call per query, results
concatenated in order. -/
def run_searches (env : Env) (attempt : Nat) : Nat → List String → List SearchResult
  | _, [] => []
  | i, q :: rest => env.searchFn attempt i q ++ run_searches env attempt (i + 1) rest

/-- The node `WebSearchAgent.__call__` together with the process-wide vector
store, modelled as the list `vs` of indexed document texts.  The
increment of `search_attempts`, the query fallback, and the assignment of
`search_results` happen first; the URL-loading/indexing side effect runs
inside `try/except` and touches only `vs`. -/
def searchCallVS (env : Env) (s : ResearchState) (vs : List String) :
    ResearchState × List String :=
  let attempts := s.search_attempts + 1
  let queries := if s.search_queries = [] then [s.user_query] else s.search_queries
  let s1 := { s with search_attempts := attempts,
                     search_results := run_searches env attempts 0 queries }
  let urls := s1.search_results.filterMap
    (fun r => if r.url = "" then none else some r.url)
  if urls = [] then (s1, vs)
  else
    match env.indexing attempts with
    | .raises => (s1, vs)
    | .loaded docs =>
      let texts := docs.filter (fun t => t ≠ "")
      if texts = [] then (s1, vs) else (s1, vs ++ texts)

/-- The research state returned by `WebSearchAgent.__call__`. -/
def searchCall (env : Env) (s : ResearchState) : ResearchState :=
  (searchCallVS env s []).1

/-- The node `WebSearchAgent.__call__` with the indexing side-effect block
omitted: the comparison point named by the frame claim. -/
def searchStageSkipIndexing (env : Env) (s : ResearchState) : ResearchState :=
  let attempts := s.search_attempts + 1
  let queries := if s.search_queries = [] then [s.user_query] else s.search_queries
  { s with search_attempts := attempts,
           search_results := run_searches env attempts 0 queries }

/-- The method `AnalyzerAgent.analyze`: per-result insights (skipping results with
empty content, as `_analyze_single` does), aggregated in order;
enumeration starts at 1. -/
def analyze (env : Env) : Nat → List SearchResult → List Insight
  | _, [] => []
  | i, r :: rest =>
    (if r.content = "" then [] else env.analyzeSingle i r) ++ analyze env (i + 1) rest

/-- The fixed analyzer error message. -/
def analyzerMsg : String := "Analyzer produced no insights from the search results."

/-- The node `AnalyzerAgent.__call__`. -/
def analyzerNode (env : Env) (s : ResearchState) : ResearchState :=
  let insights := analyze env 1 s.search_results
  if insights = [] then
    { s with extracted_insights := insights, status := "error", error := some analyzerMsg }
  else
    { s with extracted_insights := insights }

/-- The node `SummarizerAgent.__call__` (the model text is the oracle's). -/
def summarizerNode (env : Env) (s : ResearchState) : ResearchState :=
  { s with summary :=
      if s.extracted_insights = [] then "No analyses available to summarize yet."
      else env.summaryText s.user_query s.extracted_insights }

/-- Python whitespace characters recognised by `str.strip()`. -/
def pyIsWs (c : Char) : Bool :=
  c = ' ' || c = '\t' || c = '\n' || c = '\r' || c = '\x0b' || c = '\x0c'

/-- Python `s.strip()`. -/
def pyStripWs (s : String) : String :=
  String.mk (((s.data.dropWhile pyIsWs).reverse.dropWhile pyIsWs).reverse)

/-- Post-processing of the report text in `generate_report`: strip, then
prepend a default title if the text does not start with `#`. -/
def reportText (raw : String) : String :=
  let r := pyStripWs raw
  match r.data with
  | '#' :: _ => r
  | _ => "# Research Report\n\n" ++ r

/-- The node `ReportGeneratorAgent.__call__`: stores the post-processed report.
(The markdown file write is external and its failure is swallowed.) -/
def reporterNode (env : Env) (s : ResearchState) : ResearchState :=
  { s with final_report := reportText (env.reportRaw s) }

/-! ### The orchestration graph (`Orchestrator.__init__`) -/

/-- The router `route_after_search`. -/
def route_after_search (s : ResearchState) : String :=
  if s.search_results = [] ∧ s.search_attempts < 2 then "retry_search" else "to_analyzer"

/-- The router `route_after_analyzer`. -/
def route_after_analyzer (s : ResearchState) : String :=
  if s.extracted_insights = [] then "error_end" else "to_summarizer"

/-- Graph nodes; `terminal` is LangGraph's `END`. -/
inductive Node where
  | planner | search | analyzer | summarizer | reporter | terminal
deriving DecidableEq

/-- One LangGraph step: run the current node on the state, then follow
the (conditional) edge registered for it. -/
def step (env : Env) : Node × ResearchState → Node × ResearchState
  | (.planner, s) => (.search, plannerNode env s)
  | (.search, s) =>
    let s1 := searchCall env s
    (if route_after_search s1 = "retry_search" then .search else .analyzer, s1)
  | (.analyzer, s) =>
    let s1 := analyzerNode env s
    (if route_after_analyzer s1 = "error_end" then .terminal else .summarizer, s1)
  | (.summarizer, s) => (.reporter, summarizerNode env s)
  | (.reporter, s) => (.terminal, reporterNode env s)
  | (.terminal, s) => (.terminal, s)

/-- Iterated LangGraph steps. -/
def stepN (env : Env) : Nat → Node × ResearchState → Node × ResearchState
  | 0, p => p
  | n + 1, p => stepN env n (step env p)

/-- The state LangGraph's `ainvoke` returns: six steps always suffice
(proved below). -/
def graphFinal (env : Env) (q : String) : ResearchState :=
  (stepN env 6 (Node.planner, initState q)).2

/-! ### `Orchestrator.run_state` -/

/-- What `ainvoke` hands back to `run_state`: the state model itself; a
dict, which `ResearchState(**final_state)` either validates into a state
(`some s`) or rejects with a pydantic `ValidationError` (`none`) — this
branch sits outside the `try/except`; or a value of any other shape,
which the guarded `ResearchState(**dict(final_state))` either coerces
(`some s`) or fails on (`none`, caught by the `except`). -/
inductive GraphOutput where
  | state (s : ResearchState)
  | dict (validated : Option ResearchState)
  | other (coerced : Option ResearchState)
deriving DecidableEq

/-- The fixed decode-failure message. -/
def decodeMsg : String := "Failed to decode final orchestration state."

/-- The completion marking at the end of `Orchestrator.run_state`: a
non-`error` status becomes `completed`. -/
def markCompleted (s : ResearchState) : ResearchState :=
  if s.status ≠ "error" then { s with status := "completed" } else s

/-- The decode logic of `Orchestrator.run_state`; `Except.error ()`
models an exception escaping `run_state` unhandled.  Only the dict
branch can raise, because its validation is outside the `try/except`;
an uncoercible other-shaped value returns the generic error state
immediately, before the completion marking. -/
def run_state_from (q : String) (out : GraphOutput) : Except Unit ResearchState :=
  match out with
  | .state s => .ok (markCompleted s)
  | .dict (some s) => .ok (markCompleted s)
  | .dict none => .error ()
  | .other (some s) => .ok (markCompleted s)
  | .other none =>
    .ok { initState q with status := "error", error := some decodeMsg }

/-- The method `Orchestrator.run_state` on a run whose graph engine
returns the state model itself, as the `stepN` execution model does. -/
def run_state (env : Env) (q : String) : ResearchState :=
  markCompleted (graphFinal env q)

/-! ### Closed forms of one full graph run -/

/-- The state after the analyzer's conditional edge: either the analyzer
state itself (error end) or the state after summarizer and reporter. -/
def afterAnalyzer (env : Env) (t : ResearchState) : ResearchState :=
  let u := analyzerNode env t
  if route_after_analyzer u = "error_end" then u
  else reporterNode env (summarizerNode env u)

/-- The final state of a run entering the search node with state `s`. -/
def pathFromSearch (env : Env) (s : ResearchState) : ResearchState :=
  let s2 := searchCall env s
  let t := if route_after_search s2 = "retry_search" then searchCall env s2 else s2
  afterAnalyzer env t

/-- Closed form of a full run (proved equal to `graphFinal` below). -/
def runPath (env : Env) (q : String) : ResearchState :=
  pathFromSearch env (plannerNode env (initState q))

/-! ### Concrete collaborator environments (used to witness theorems) -/

/-- A run whose search provider returns no results on every invocation. -/
def envAllEmpty : Env :=
  { planFields := fun q => ([q], [q], [q]),
    searchFn := fun _ _ _ => [],
    indexing := fun _ => .raises,
    analyzeSingle := fun _ _ => [],
    summaryText := fun _ _ => "",
    reportRaw := fun _ => "" }

/-- A run in which every collaborator succeeds. -/
def envComplete : Env :=
  { planFields := fun q => ([q], [q], [q]),
    searchFn := fun _ _ _ => [⟨"T", "s", "c", "http://u"⟩],
    indexing := fun _ => .loaded ["d"],
    analyzeSingle := fun _ _ => [⟨"f", "e", "s"⟩],
    summaryText := fun _ _ => "sum",
    reportRaw := fun _ => "body" }

/-! ## Shared lemmas -/

theorem searchCallVS_fst (env : Env) (s : ResearchState) (vs : List String) :
    (searchCallVS env s vs).1 = searchStageSkipIndexing env s := by
  unfold searchCallVS searchStageSkipIndexing
  dsimp only
  generalize (if s.search_queries = [] then [s.user_query] else s.search_queries) = qs
  split
  · rfl
  · split
    · rfl
    · split <;> rfl

theorem searchCall_eq_skip (env : Env) (s : ResearchState) :
    searchCall env s = searchStageSkipIndexing env s :=
  searchCallVS_fst env s []

theorem searchCall_search_attempts (env : Env) (s : ResearchState) :
    (searchCall env s).search_attempts = s.search_attempts + 1 := by
  rw [searchCall_eq_skip]; rfl

theorem searchCall_status (env : Env) (s : ResearchState) :
    (searchCall env s).status = s.status := by
  rw [searchCall_eq_skip]; rfl

theorem searchCall_error (env : Env) (s : ResearchState) :
    (searchCall env s).error = s.error := by
  rw [searchCall_eq_skip]; rfl

theorem searchCall_final_report (env : Env) (s : ResearchState) :
    (searchCall env s).final_report = s.final_report := by
  rw [searchCall_eq_skip]; rfl

theorem mockResults_length (q : String) (k : Nat) : (mockResults q k).length = k := by
  simp [mockResults]

theorem mockResults_ne_nil (q : String) (k : Nat) (hk : 0 < k) : mockResults q k ≠ [] := by
  apply List.ne_nil_of_length_pos
  rw [mockResults_length]
  exact hk

theorem webSearch_ne_nil (key : Option String) (out : HttpOutcome) (q : String) :
    webSearch key out q 5 ≠ [] := by
  have hmock : mockResults q (min 5 3) ≠ [] := mockResults_ne_nil q _ (by decide)
  unfold webSearch
  match key with
  | none => exact hmock
  | some k =>
    dsimp only
    split
    · exact hmock
    · match out with
      | .raises => exact hmock
      | .returns organic =>
        dsimp only
        split
        · exact hmock
        · assumption

theorem replaceIllegal_not_illegal (l : List Char) :
    ∀ c ∈ replaceIllegal l, isIllegal c = false := by
  intro c hc
  rcases List.mem_map.mp hc with ⟨a, _, rfl⟩
  by_cases h : isIllegal a
  · simp only [h, if_true]
    decide
  · simp only [h, if_false]
    simpa using h

theorem replaceIllegal_eq_self (l : List Char) (h : ∀ c ∈ l, isIllegal c = false) :
    replaceIllegal l = l := by
  unfold replaceIllegal
  have := List.map_congr_left (l := l) (f := fun c => if isIllegal c then '_' else c)
    (g := fun c => c) (fun a ha => by simp [h a ha])
  rw [this, List.map_id']

theorem mem_stripDots (l : List Char) (c : Char) (hc : c ∈ stripDots l) : c ∈ l := by
  unfold stripDots at hc
  rw [List.mem_reverse] at hc
  have h1 : c ∈ (l.dropWhile isStripChar).reverse :=
    ((List.dropWhile_suffix isStripChar).sublist).mem hc
  rw [List.mem_reverse] at h1
  exact ((List.dropWhile_suffix isStripChar).sublist).mem h1

theorem stripDots_as_rdrop (l : List Char) :
    stripDots l = List.rdropWhile isStripChar (l.dropWhile isStripChar) := rfl

theorem stripDots_idem (l : List Char) : stripDots (stripDots l) = stripDots l := by
  have h1 : (stripDots l).dropWhile isStripChar = stripDots l := by
    rcases heq : stripDots l with _ | ⟨a, t⟩
    · rfl
    · have hpre : a :: t <+: l.dropWhile isStripChar := by
        rw [← heq, stripDots_as_rdrop]
        exact List.rdropWhile_prefix _ _
      have hhead : isStripChar a = false := by
        rcases hdw : l.dropWhile isStripChar with _ | ⟨b, t2⟩
        · rw [hdw] at hpre
          rcases hpre with ⟨r, hr⟩
          simp at hr
        · rw [hdw] at hpre
          have hab : a = b := (List.cons_prefix_cons.mp hpre).1
          have hb := List.head?_dropWhile_not isStripChar l
          rw [hdw] at hb
          simp only [List.head?_cons] at hb
          rw [hab]
          exact hb
      simp [List.dropWhile_cons, hhead]
  have h2 : List.rdropWhile isStripChar (stripDots l) = stripDots l := by
    rw [stripDots_as_rdrop]
    exact List.rdropWhile_idempotent _ _
  rw [stripDots_as_rdrop (stripDots l), h1, h2]

theorem take_replicate_min {α : Type} (c : α) : ∀ (n m : Nat),
    (List.replicate m c).take n = List.replicate (min n m) c := by
  intro n m
  induction m generalizing n with
  | zero => simp
  | succ m ih =>
    cases n with
    | zero => simp
    | succ n =>
      rw [List.replicate_succ, List.take_succ_cons, ih, Nat.succ_min_succ,
        List.replicate_succ]

theorem stripDots_replicate_underscore (n : Nat) :
    stripDots (List.replicate n '_') = List.replicate n '_' := by
  unfold stripDots
  rw [List.dropWhile_replicate, if_neg (by decide), List.reverse_replicate,
    List.dropWhile_replicate, if_neg (by decide), List.reverse_replicate]

theorem replaceIllegal_all_illegal (l : List Char) (hall : ∀ c ∈ l, isIllegal c = true) :
    replaceIllegal l = List.replicate l.length '_' := by
  unfold replaceIllegal
  rw [List.map_congr_left (g := fun _ => '_') (fun a ha => by simp [hall a ha]),
    List.map_const']

theorem dedupFirstSeen_nodup (l : List (String × String)) : (dedupFirstSeen l).Nodup := by
  induction l with
  | nil => exact List.nodup_nil
  | cons k rest ih =>
    simp only [dedupFirstSeen]
    refine List.nodup_cons.mpr ⟨?_, ih.filter _⟩
    intro hmem
    have hk := List.of_mem_filter hmem
    simp at hk

theorem buildRefKeys_eq (items : List SearchResult) :
    ∀ seen, buildRefKeys items seen
      = (dedupFirstSeen (items.map refKey)).filter (fun x => decide (x ∉ seen)) := by
  induction items with
  | nil => intro seen; rfl
  | cons item rest ih =>
    intro seen
    simp only [buildRefKeys, List.map_cons, dedupFirstSeen]
    by_cases hk : refKey item ∈ seen
    · rw [if_pos hk, List.filter_cons]
      have hdec : decide (refKey item ∉ seen) = false := by simp [hk]
      rw [hdec]
      simp only [Bool.false_eq_true, if_false, List.filter_filter]
      have hp : (fun x => decide (x ∉ seen))
          = (fun a => decide (a ∉ seen) && decide (a ≠ refKey item)) := by
        funext a
        by_cases ha : a = refKey item
        · subst ha; simp [hk]
        · by_cases hs : a ∈ seen <;> simp [ha, hs]
      rw [ih seen, hp]
    · rw [if_neg hk, List.filter_cons]
      have hdec : decide (refKey item ∉ seen) = true := by simp [hk]
      rw [hdec]
      simp only [if_true, List.filter_filter]
      have hp : (fun x => decide (x ∉ refKey item :: seen))
          = (fun a => decide (a ∉ seen) && decide (a ≠ refKey item)) := by
        funext a
        by_cases ha : a = refKey item
        · subst ha; simp
        · by_cases hs : a ∈ seen <;> simp [ha, hs]
      rw [ih (refKey item :: seen), hp]

theorem stepN_terminal (env : Env) : ∀ (n : Nat) (s : ResearchState),
    stepN env n (Node.terminal, s) = (Node.terminal, s)
  | 0, _ => rfl
  | n + 1, s => stepN_terminal env n s

theorem stepN_add (env : Env) (m n : Nat) (p : Node × ResearchState) :
    stepN env (m + n) p = stepN env m (stepN env n p) := by
  induction n generalizing p with
  | zero => rfl
  | succ n ih =>
    have h1 : stepN env (m + (n + 1)) p = stepN env (m + n) (step env p) := rfl
    rw [h1, ih]
    rfl

theorem analyzerNode_insights (env : Env) (s : ResearchState) :
    (analyzerNode env s).extracted_insights = analyze env 1 s.search_results := by
  unfold analyzerNode
  dsimp only
  split <;> rfl

theorem analyzerNode_of_empty (env : Env) (s : ResearchState)
    (h : analyze env 1 s.search_results = []) :
    analyzerNode env s
      = { s with extracted_insights := [], status := "error", error := some analyzerMsg } := by
  unfold analyzerNode
  dsimp only
  rw [h, if_pos rfl]

theorem analyzerNode_of_nonempty (env : Env) (s : ResearchState)
    (h : analyze env 1 s.search_results ≠ []) :
    analyzerNode env s = { s with extracted_insights := analyze env 1 s.search_results } := by
  unfold analyzerNode
  dsimp only
  rw [if_neg h]

theorem reportText_ne_empty (raw : String) : reportText raw ≠ "" := by
  unfold reportText
  dsimp only
  split
  · next heq =>
    intro hc
    rw [hc] at heq
    exact List.noConfusion heq
  · intro hc
    have hd := congrArg String.data hc
    rw [String.data_append] at hd
    exact List.noConfusion hd

theorem stepN3_analyzer (env : Env) (t : ResearchState) :
    stepN env 3 (Node.analyzer, t) = (Node.terminal, afterAnalyzer env t) := by
  by_cases h : route_after_analyzer (analyzerNode env t) = "error_end"
  · have h1 : step env (Node.analyzer, t) = (Node.terminal, analyzerNode env t) := by
      show (if route_after_analyzer (analyzerNode env t) = "error_end" then Node.terminal
          else Node.summarizer, analyzerNode env t) = _
      rw [if_pos h]
    show stepN env 2 (step env (Node.analyzer, t)) = _
    rw [h1, stepN_terminal]
    unfold afterAnalyzer
    rw [if_pos h]
  · have h1 : step env (Node.analyzer, t) = (Node.summarizer, analyzerNode env t) := by
      show (if route_after_analyzer (analyzerNode env t) = "error_end" then Node.terminal
          else Node.summarizer, analyzerNode env t) = _
      rw [if_neg h]
    show stepN env 2 (step env (Node.analyzer, t)) = _
    rw [h1]
    show (Node.terminal, reporterNode env (summarizerNode env (analyzerNode env t))) = _
    unfold afterAnalyzer
    rw [if_neg h]

theorem route_second_search (env : Env) (s : ResearchState) (h0 : s.search_attempts = 0) :
    route_after_search (searchCall env (searchCall env s)) = "to_analyzer" := by
  unfold route_after_search
  rw [if_neg ?_]
  rintro ⟨_, hlt⟩
  rw [searchCall_search_attempts, searchCall_search_attempts, h0] at hlt
  omega

theorem stepN5_search (env : Env) (s : ResearchState) (h0 : s.search_attempts = 0) :
    stepN env 5 (Node.search, s) = (Node.terminal, pathFromSearch env s) := by
  by_cases hr : route_after_search (searchCall env s) = "retry_search"
  · have h1 : step env (Node.search, s) = (Node.search, searchCall env s) := by
      show (if route_after_search (searchCall env s) = "retry_search" then Node.search
          else Node.analyzer, searchCall env s) = _
      rw [if_pos hr]
    have h2 : step env (Node.search, searchCall env s)
        = (Node.analyzer, searchCall env (searchCall env s)) := by
      show (if route_after_search (searchCall env (searchCall env s)) = "retry_search"
          then Node.search else Node.analyzer, searchCall env (searchCall env s)) = _
      rw [route_second_search env s h0, if_neg (by decide)]
    show stepN env 4 (step env (Node.search, s)) = _
    rw [h1]
    show stepN env 3 (step env (Node.search, searchCall env s)) = _
    rw [h2, stepN3_analyzer]
    simp only [pathFromSearch]
    rw [if_pos hr]
  · have h1 : step env (Node.search, s) = (Node.analyzer, searchCall env s) := by
      show (if route_after_search (searchCall env s) = "retry_search" then Node.search
          else Node.analyzer, searchCall env s) = _
      rw [if_neg hr]
    show stepN env 4 (step env (Node.search, s)) = _
    rw [h1]
    rw [show (4 : Nat) = 1 + 3 from rfl, stepN_add, stepN3_analyzer, stepN_terminal]
    simp only [pathFromSearch]
    rw [if_neg hr]

theorem graphFinal_eq_runPath (env : Env) (q : String) :
    stepN env 6 (Node.planner, initState q) = (Node.terminal, runPath env q) := by
  show stepN env 5 (step env (Node.planner, initState q)) = _
  have h1 : step env (Node.planner, initState q)
      = (Node.search, plannerNode env (initState q)) := rfl
  rw [h1, stepN5_search env _ rfl]
  rfl

theorem afterAnalyzer_of_empty (env : Env) (t : ResearchState)
    (hA : analyze env 1 t.search_results = []) :
    afterAnalyzer env t
      = { t with extracted_insights := [], status := "error", error := some analyzerMsg } := by
  have hroute : route_after_analyzer
      ({ t with extracted_insights := [], status := "error", error := some analyzerMsg })
      = "error_end" := by
    unfold route_after_analyzer
    rw [if_pos rfl]
  simp only [afterAnalyzer]
  rw [analyzerNode_of_empty env t hA, hroute, if_pos rfl]

theorem afterAnalyzer_of_nonempty (env : Env) (t : ResearchState)
    (hA : analyze env 1 t.search_results ≠ []) :
    afterAnalyzer env t
      = reporterNode env (summarizerNode env
          ({ t with extracted_insights := analyze env 1 t.search_results })) := by
  have hroute : route_after_analyzer
      ({ t with extracted_insights := analyze env 1 t.search_results })
      = "to_summarizer" := by
    unfold route_after_analyzer
    rw [if_neg hA]
  simp only [afterAnalyzer]
  rw [analyzerNode_of_nonempty env t hA, hroute, if_neg (by decide)]

theorem graphFinal_def (env : Env) (q : String) :
    graphFinal env q = (stepN env 6 (Node.planner, initState q)).2 := rfl

theorem runPath_def (env : Env) (q : String) :
    runPath env q
      = afterAnalyzer env
          (if route_after_search (searchCall env (plannerNode env (initState q)))
              = "retry_search"
            then searchCall env (searchCall env (plannerNode env (initState q)))
            else searchCall env (plannerNode env (initState q))) := rfl

theorem afterAnalyzer_empty_of_insights (env : Env) (t : ResearchState)
    (h : (afterAnalyzer env t).extracted_insights = []) :
    analyze env 1 t.search_results = [] := by
  by_cases hA : analyze env 1 t.search_results = []
  · exact hA
  · exfalso
    apply hA
    rw [afterAnalyzer_of_nonempty env t hA] at h
    exact h

/-! ## Claim theorems (first group) -/

theorem sanitizeChars_no_truncation (l : List Char)
    (h : (stripDots (replaceIllegal l)).length ≤ 200) :
    sanitizeChars l
      = if stripDots (replaceIllegal l) = [] then "research_report".toList
        else stripDots (replaceIllegal l) := by
  have h' : ¬ (stripDots (replaceIllegal l)).length > 200 := by omega
  simp only [sanitizeChars]
  rw [if_neg h']

theorem sanitizeChars_idem (l : List Char)
    (h : (stripDots (replaceIllegal l)).length ≤ 200) :
    sanitizeChars (sanitizeChars l) = sanitizeChars l := by
  rw [sanitizeChars_no_truncation l h]
  by_cases hte : stripDots (replaceIllegal l) = []
  · rw [if_pos hte]
    decide
  · rw [if_neg hte]
    have hri : replaceIllegal (stripDots (replaceIllegal l)) = stripDots (replaceIllegal l) :=
      replaceIllegal_eq_self _ (fun c hc =>
        replaceIllegal_not_illegal l c (mem_stripDots _ c hc))
    have h' : ¬ (stripDots (replaceIllegal l)).length > 200 := by omega
    simp only [sanitizeChars]
    rw [hri, stripDots_idem, if_neg h', if_neg hte]

/-- C7 (amended): filename sanitization is idempotent on every input
whose replaced-and-stripped form does not exceed 200 characters (the
truncation can expose a trailing space or dot, breaking idempotence in
general); a non-empty input of only filename-illegal characters maps to
that many underscores, capped at 200 — not to the placeholder name; when
the replaced-and-stripped form exceeds 200 characters the result has
exactly 200 characters (the original clause, bounding the raw input
length instead, fails because stripping can shrink the input below 200);
and the placeholder name is returned whenever the replaced-and-stripped
form is empty. -/
theorem c7_sanitize_amended :
    (∀ s : String, (stripDots (replaceIllegal s.data)).length ≤ 200 →
        sanitizeFilename (sanitizeFilename s) = sanitizeFilename s) ∧
    (∀ s : String, s.data ≠ [] → (∀ c ∈ s.data, isIllegal c = true) →
        sanitizeFilename s = String.mk (List.replicate (min s.data.length 200) '_')) ∧
    (∀ s : String, (stripDots (replaceIllegal s.data)).length > 200 →
        (sanitizeFilename s).data.length = 200) ∧
    (∀ s : String, stripDots (replaceIllegal s.data) = [] →
        sanitizeFilename s = "research_report") := by
  refine ⟨?_, ?_, ?_, ?_⟩
  · intro s h
    show String.mk (sanitizeChars (sanitizeChars s.data)) = String.mk (sanitizeChars s.data)
    rw [sanitizeChars_idem s.data h]
  · intro s hne hall
    show String.mk (sanitizeChars s.data) = _
    simp only [sanitizeChars]
    rw [replaceIllegal_all_illegal s.data hall, stripDots_replicate_underscore]
    simp only [List.length_replicate]
    by_cases hlong : s.data.length > 200
    · have hmin1 : min 200 s.data.length = 200 := min_eq_left (by omega)
      have hmin2 : min s.data.length 200 = 200 := min_eq_right (by omega)
      rw [if_pos hlong, take_replicate_min, hmin1, hmin2, if_neg ?_]
      intro hc
      have hlc := congrArg List.length hc
      rw [List.length_replicate, List.length_nil] at hlc
      exact absurd hlc (by omega)
    · have hmin3 : min s.data.length 200 = s.data.length := min_eq_left (by omega)
      rw [if_neg hlong, hmin3, if_neg ?_]
      intro hc
      have hlc := congrArg List.length hc
      simp only [List.length_replicate, List.length_nil] at hlc
      exact hne (List.length_eq_zero.mp hlc)
  · intro s h
    show (String.mk (sanitizeChars s.data)).data.length = 200
    simp only [sanitizeChars]
    rw [if_pos h, if_neg ?_]
    · show (List.take 200 (stripDots (replaceIllegal s.data))).length = 200
      rw [List.length_take]
      exact min_eq_left (by omega)
    · intro hc
      have hlc := congrArg List.length hc
      rw [List.length_take, List.length_nil] at hlc
      have h200 : min 200 (stripDots (replaceIllegal s.data)).length = 200 :=
        min_eq_left (by omega)
      rw [h200] at hlc
      exact absurd hlc (by omega)
  · intro s h
    show String.mk (sanitizeChars s.data) = _
    simp only [sanitizeChars]
    rw [h, if_neg (show ¬ ([] : List Char).length > 200 from by decide), if_pos rfl]
    rfl

set_option maxRecDepth 4000 in
/-- C7 fails as stated: sanitizing the all-illegal one-character name
`?` yields `_`, not the placeholder `research_report`; idempotence
fails on a 210-character name whose truncation at 200 exposes a trailing
space that a second sanitization strips; and a 201-character name made
of spaces (longer than 200 characters) sanitizes to the 15-character
placeholder, not to a 200-character result. -/
theorem c7_counterexample :
    sanitizeFilename "?" = "_" ∧
    sanitizeFilename "?" ≠ "research_report" ∧
    sanitizeFilename (sanitizeFilename
        (String.mk (List.replicate 199 'a' ++ ' ' :: List.replicate 10 'a')))
      ≠ sanitizeFilename (String.mk (List.replicate 199 'a' ++ ' ' :: List.replicate 10 'a')) ∧
    (String.mk (List.replicate 201 ' ')).data.length > 200 ∧
    sanitizeFilename (String.mk (List.replicate 201 ' ')) = "research_report" ∧
    (sanitizeFilename (String.mk (List.replicate 201 ' '))).data.length ≠ 200 := by
  refine ⟨rfl, by decide, by decide, by decide, by decide, by decide⟩

set_option maxRecDepth 4000 in
/-- Witness for C7 (amended) at concrete inputs. -/
theorem c7_witness :
    sanitizeFilename (sanitizeFilename "a<b") = sanitizeFilename "a<b" ∧
    sanitizeFilename "?*" = String.mk (List.replicate (min ("?*" : String).data.length 200) '_') ∧
    (sanitizeFilename (String.mk (List.replicate 201 'b'))).data.length = 200 ∧
    sanitizeFilename "." = "research_report" :=
  ⟨c7_sanitize_amended.1 "a<b" (by decide),
   c7_sanitize_amended.2.1 "?*" (by decide) (by decide),
   c7_sanitize_amended.2.2.1 (String.mk (List.replicate 201 'b')) (by decide),
   c7_sanitize_amended.2.2.2 "." (by decide)⟩

/-- C2: every run of the orchestration graph reaches the terminal state
within six steps (the search self-loop is taken at most once, because
every execution of the search stage increments `search_attempts` by
exactly 1 and the retry edge requires `search_attempts < 2`). -/
theorem c2_every_path_terminates :
    (∀ (env : Env) (q : String),
        (stepN env 6 (Node.planner, initState q)).1 = Node.terminal) ∧
    (∀ (env : Env) (s : ResearchState),
        (searchCall env s).search_attempts = s.search_attempts + 1) := by
  refine ⟨fun env q => ?_, searchCall_search_attempts⟩
  rw [graphFinal_eq_runPath]

/-- C1: when the search provider returns an empty list on every
invocation, the run visits the nodes planner, search, search, analyzer
and then ends: the search stage executes exactly twice, each execution
increments `search_attempts` by exactly 1 (0 → 1 → 2), and the pipeline
enters the analyzer with `search_results = []`. -/
theorem c1_empty_search_two_attempts (env : Env) (q : String)
    (hE : ∀ (a i : Nat) (qq : String), env.searchFn a i qq = []) :
    ((List.range 7).map (fun k => (stepN env k (Node.planner, initState q)).1)
        = [Node.planner, Node.search, Node.search, Node.analyzer,
           Node.terminal, Node.terminal, Node.terminal]) ∧
    (stepN env 1 (Node.planner, initState q)).2.search_attempts = 0 ∧
    (stepN env 2 (Node.planner, initState q)).2.search_attempts = 1 ∧
    (stepN env 3 (Node.planner, initState q)).2.search_attempts = 2 ∧
    (stepN env 3 (Node.planner, initState q)).2.search_results = [] := by
  have hrs : ∀ (a i : Nat) (qs : List String), run_searches env a i qs = [] := by
    intro a i qs
    induction qs generalizing i with
    | nil => rfl
    | cons q1 rest ih =>
      show env.searchFn a i q1 ++ run_searches env a (i + 1) rest = []
      rw [hE, ih]
      rfl
  have hsr : ∀ s : ResearchState, (searchCall env s).search_results = [] := by
    intro s
    rw [searchCall_eq_skip]
    exact hrs _ _ _
  have ha1 : (plannerNode env (initState q)).search_attempts = 0 := rfl
  have hlt1 : (searchCall env (plannerNode env (initState q))).search_attempts < 2 := by
    rw [searchCall_search_attempts, ha1]
    omega
  have hroute1 : route_after_search (searchCall env (plannerNode env (initState q)))
      = "retry_search" := by
    unfold route_after_search
    rw [if_pos ⟨hsr _, hlt1⟩]
  have e1 : step env (Node.planner, initState q)
      = (Node.search, plannerNode env (initState q)) := rfl
  have e2 : step env (Node.search, plannerNode env (initState q))
      = (Node.search, searchCall env (plannerNode env (initState q))) := by
    show (if route_after_search (searchCall env (plannerNode env (initState q)))
        = "retry_search" then Node.search else Node.analyzer, _) = _
    rw [hroute1, if_pos rfl]
  have e3 : step env (Node.search, searchCall env (plannerNode env (initState q)))
      = (Node.analyzer, searchCall env (searchCall env (plannerNode env (initState q)))) := by
    show (if route_after_search (searchCall env (searchCall env (plannerNode env (initState q))))
        = "retry_search" then Node.search else Node.analyzer, _) = _
    rw [route_second_search env _ ha1, if_neg (by decide)]
  have hins : analyze env 1
      (searchCall env (searchCall env (plannerNode env (initState q)))).search_results = [] := by
    rw [hsr]
    rfl
  have e4 : step env (Node.analyzer,
        searchCall env (searchCall env (plannerNode env (initState q))))
      = (Node.terminal, analyzerNode env
          (searchCall env (searchCall env (plannerNode env (initState q))))) := by
    show (if route_after_analyzer (analyzerNode env _) = "error_end" then Node.terminal
        else Node.summarizer, analyzerNode env _) = _
    rw [if_pos ?_]
    unfold route_after_analyzer
    rw [analyzerNode_insights, hins, if_pos rfl]
  have q1 : stepN env 1 (Node.planner, initState q)
      = (Node.search, plannerNode env (initState q)) := e1
  have q2 : stepN env 2 (Node.planner, initState q)
      = (Node.search, searchCall env (plannerNode env (initState q))) := e2
  have q3 : stepN env 3 (Node.planner, initState q)
      = (Node.analyzer, searchCall env (searchCall env (plannerNode env (initState q)))) := by
    show stepN env 1 (step env (Node.search, plannerNode env (initState q))) = _
    rw [e2]
    exact e3
  have q4 : stepN env 4 (Node.planner, initState q)
      = (Node.terminal, analyzerNode env
          (searchCall env (searchCall env (plannerNode env (initState q))))) := by
    show stepN env 2 (step env (Node.search, plannerNode env (initState q))) = _
    rw [e2]
    show stepN env 1 (step env (Node.search, searchCall env (plannerNode env (initState q)))) = _
    rw [e3]
    exact e4
  have q5 : stepN env 5 (Node.planner, initState q)
      = (Node.terminal, analyzerNode env
          (searchCall env (searchCall env (plannerNode env (initState q))))) := by
    rw [show (5 : Nat) = 1 + 4 from rfl, stepN_add, q4, stepN_terminal]
  have q6 : stepN env 6 (Node.planner, initState q)
      = (Node.terminal, analyzerNode env
          (searchCall env (searchCall env (plannerNode env (initState q))))) := by
    rw [show (6 : Nat) = 2 + 4 from rfl, stepN_add, q4, stepN_terminal]
  refine ⟨?_, ?_, ?_, ?_, ?_⟩
  · show [(stepN env 0 (Node.planner, initState q)).1, (stepN env 1 (Node.planner, initState q)).1,
      (stepN env 2 (Node.planner, initState q)).1, (stepN env 3 (Node.planner, initState q)).1,
      (stepN env 4 (Node.planner, initState q)).1, (stepN env 5 (Node.planner, initState q)).1,
      (stepN env 6 (Node.planner, initState q)).1] = _
    rw [q1, q2, q3, q4, q5, q6]
    rfl
  · rw [q1]
    exact ha1
  · rw [q2, searchCall_search_attempts, ha1]
  · rw [q3, searchCall_search_attempts, searchCall_search_attempts, ha1]
  · rw [q3]
    exact hsr _

/-- Witness for C1: the all-empty search environment on query `q`. -/
theorem c1_witness :
    ((List.range 7).map (fun k => (stepN envAllEmpty k (Node.planner, initState "q")).1)
        = [Node.planner, Node.search, Node.search, Node.analyzer,
           Node.terminal, Node.terminal, Node.terminal]) ∧
    (stepN envAllEmpty 1 (Node.planner, initState "q")).2.search_attempts = 0 ∧
    (stepN envAllEmpty 2 (Node.planner, initState "q")).2.search_attempts = 1 ∧
    (stepN envAllEmpty 3 (Node.planner, initState "q")).2.search_attempts = 2 ∧
    (stepN envAllEmpty 3 (Node.planner, initState "q")).2.search_results = [] :=
  c1_empty_search_two_attempts envAllEmpty "q" (fun _ _ _ => rfl)

/-- C3: whenever the analyzer stage produces an empty insight list, the
run ends with status `error` and the fixed analyzer message, the
summarizer and reporter nodes are never visited, and `final_report`
keeps its default empty value. -/
theorem c3_empty_insights_error (env : Env) (q : String)
    (h : (graphFinal env q).extracted_insights = []) :
    (graphFinal env q).status = "error" ∧
    (graphFinal env q).error = some analyzerMsg ∧
    (graphFinal env q).final_report = "" ∧
    (run_state env q).status = "error" ∧
    (∀ k : Nat, (stepN env k (Node.planner, initState q)).1 ≠ Node.summarizer ∧
        (stepN env k (Node.planner, initState q)).1 ≠ Node.reporter) := by
  have hgf : graphFinal env q
      = afterAnalyzer env
          (if route_after_search (searchCall env (plannerNode env (initState q)))
              = "retry_search"
            then searchCall env (searchCall env (plannerNode env (initState q)))
            else searchCall env (plannerNode env (initState q))) := by
    rw [graphFinal_def, graphFinal_eq_runPath, ← runPath_def]
  rw [hgf] at h
  have hA := afterAnalyzer_empty_of_insights env _ h
  have hEq := afterAnalyzer_of_empty env _ hA
  have hstat : (graphFinal env q).status = "error" := by rw [hgf, hEq]
  have herr : (graphFinal env q).error = some analyzerMsg := by rw [hgf, hEq]
  have hfr : (graphFinal env q).final_report = "" := by
    rw [hgf, hEq]
    show (if route_after_search (searchCall env (plannerNode env (initState q)))
        = "retry_search"
      then searchCall env (searchCall env (plannerNode env (initState q)))
      else searchCall env (plannerNode env (initState q))).final_report = ""
    split
    · rw [searchCall_final_report, searchCall_final_report]
      rfl
    · rw [searchCall_final_report]
      rfl
  have hrun : (run_state env q).status = "error" := by
    simp only [run_state, markCompleted]
    rw [if_neg (by simp [hstat])]
    exact hstat
  refine ⟨hstat, herr, hfr, hrun, ?_⟩
  intro k
  rcases Nat.lt_or_ge k 7 with hk | hk
  · by_cases hr : route_after_search (searchCall env (plannerNode env (initState q)))
        = "retry_search"
    · have e2 : step env (Node.search, plannerNode env (initState q))
          = (Node.search, searchCall env (plannerNode env (initState q))) := by
        show (if route_after_search (searchCall env (plannerNode env (initState q)))
            = "retry_search" then Node.search else Node.analyzer, _) = _
        rw [hr, if_pos rfl]
      have e3 : step env (Node.search, searchCall env (plannerNode env (initState q)))
          = (Node.analyzer,
              searchCall env (searchCall env (plannerNode env (initState q)))) := by
        show (if route_after_search
              (searchCall env (searchCall env (plannerNode env (initState q))))
            = "retry_search" then Node.search else Node.analyzer, _) = _
        rw [route_second_search env _ rfl, if_neg (by decide)]
      have hA3 : analyze env 1
          (searchCall env (searchCall env (plannerNode env (initState q)))).search_results
          = [] := by
        rw [if_pos hr] at hA
        exact hA
      have e4 : step env (Node.analyzer,
            searchCall env (searchCall env (plannerNode env (initState q))))
          = (Node.terminal, analyzerNode env
              (searchCall env (searchCall env (plannerNode env (initState q))))) := by
        show (if route_after_analyzer (analyzerNode env _) = "error_end" then Node.terminal
            else Node.summarizer, analyzerNode env _) = _
        rw [if_pos ?_]
        unfold route_after_analyzer
        rw [analyzerNode_insights, hA3, if_pos rfl]
      have q1 : stepN env 1 (Node.planner, initState q)
          = (Node.search, plannerNode env (initState q)) := rfl
      have q2 : stepN env 2 (Node.planner, initState q)
          = (Node.search, searchCall env (plannerNode env (initState q))) := e2
      have q3 : stepN env 3 (Node.planner, initState q)
          = (Node.analyzer,
              searchCall env (searchCall env (plannerNode env (initState q)))) := by
        show stepN env 1 (step env (Node.search, plannerNode env (initState q))) = _
        rw [e2]
        exact e3
      have q4 : stepN env 4 (Node.planner, initState q)
          = (Node.terminal, analyzerNode env
              (searchCall env (searchCall env (plannerNode env (initState q))))) := by
        show stepN env 2 (step env (Node.search, plannerNode env (initState q))) = _
        rw [e2]
        show stepN env 1 (step env (Node.search,
            searchCall env (plannerNode env (initState q)))) = _
        rw [e3]
        exact e4
      have q5 : stepN env 5 (Node.planner, initState q)
          = (Node.terminal, analyzerNode env
              (searchCall env (searchCall env (plannerNode env (initState q))))) := by
        rw [show (5 : Nat) = 1 + 4 from rfl, stepN_add, q4, stepN_terminal]
      have q6 : stepN env 6 (Node.planner, initState q)
          = (Node.terminal, analyzerNode env
              (searchCall env (searchCall env (plannerNode env (initState q))))) := by
        rw [show (6 : Nat) = 2 + 4 from rfl, stepN_add, q4, stepN_terminal]
      interval_cases k <;>
        exact ⟨by (try simp only [q1, q2, q3, q4, q5, q6]); intro hc; exact Node.noConfusion hc,
               by (try simp only [q1, q2, q3, q4, q5, q6]); intro hc; exact Node.noConfusion hc⟩
    · have e2 : step env (Node.search, plannerNode env (initState q))
          = (Node.analyzer, searchCall env (plannerNode env (initState q))) := by
        show (if route_after_search (searchCall env (plannerNode env (initState q)))
            = "retry_search" then Node.search else Node.analyzer, _) = _
        rw [if_neg hr]
      have hA2 : analyze env 1
          (searchCall env (plannerNode env (initState q))).search_results = [] := by
        rw [if_neg hr] at hA
        exact hA
      have e3 : step env (Node.analyzer, searchCall env (plannerNode env (initState q)))
          = (Node.terminal, analyzerNode env
              (searchCall env (plannerNode env (initState q)))) := by
        show (if route_after_analyzer (analyzerNode env _) = "error_end" then Node.terminal
            else Node.summarizer, analyzerNode env _) = _
        rw [if_pos ?_]
        unfold route_after_analyzer
        rw [analyzerNode_insights, hA2, if_pos rfl]
      have q1 : stepN env 1 (Node.planner, initState q)
          = (Node.search, plannerNode env (initState q)) := rfl
      have q2 : stepN env 2 (Node.planner, initState q)
          = (Node.analyzer, searchCall env (plannerNode env (initState q))) := e2
      have q3 : stepN env 3 (Node.planner, initState q)
          = (Node.terminal, analyzerNode env
              (searchCall env (plannerNode env (initState q)))) := by
        show stepN env 1 (step env (Node.search, plannerNode env (initState q))) = _
        rw [e2]
        exact e3
      have q4 : stepN env 4 (Node.planner, initState q)
          = (Node.terminal, analyzerNode env
              (searchCall env (plannerNode env (initState q)))) := by
        rw [show (4 : Nat) = 1 + 3 from rfl, stepN_add, q3, stepN_terminal]
      have q5 : stepN env 5 (Node.planner, initState q)
          = (Node.terminal, analyzerNode env
              (searchCall env (plannerNode env (initState q)))) := by
        rw [show (5 : Nat) = 2 + 3 from rfl, stepN_add, q3, stepN_terminal]
      have q6 : stepN env 6 (Node.planner, initState q)
          = (Node.terminal, analyzerNode env
              (searchCall env (plannerNode env (initState q)))) := by
        rw [show (6 : Nat) = 3 + 3 from rfl, stepN_add, q3, stepN_terminal]
      interval_cases k <;>
        exact ⟨by (try simp only [q1, q2, q3, q4, q5, q6]); intro hc; exact Node.noConfusion hc,
               by (try simp only [q1, q2, q3, q4, q5, q6]); intro hc; exact Node.noConfusion hc⟩
  · obtain ⟨m, rfl⟩ : ∃ m, k = m + 6 := ⟨k - 6, by omega⟩
    rw [stepN_add, graphFinal_eq_runPath, stepN_terminal]
    exact ⟨fun hc => Node.noConfusion hc, fun hc => Node.noConfusion hc⟩

/-- Witness for C3: the all-empty search environment yields empty
insights, and the theorem's conclusions hold on it. -/
theorem c3_witness :
    (graphFinal envAllEmpty "q").status = "error" ∧
    (graphFinal envAllEmpty "q").error = some analyzerMsg ∧
    (graphFinal envAllEmpty "q").final_report = "" ∧
    (run_state envAllEmpty "q").status = "error" ∧
    (∀ k : Nat, (stepN envAllEmpty k (Node.planner, initState "q")).1 ≠ Node.summarizer ∧
        (stepN envAllEmpty k (Node.planner, initState "q")).1 ≠ Node.reporter) :=
  c3_empty_insights_error envAllEmpty "q" (by decide)

theorem run_state_cases (env : Env) (q : String) (t : ResearchState)
    (hgf : graphFinal env q = afterAnalyzer env t)
    (hst : t.status = "pending") (he : t.error = none) :
    ((run_state env q).status = "completed" →
        (run_state env q).final_report ≠ "" ∧ (run_state env q).error = none) ∧
    ((run_state env q).status = "completed" ↔ (graphFinal env q).status ≠ "error") := by
  by_cases hA : analyze env 1 t.search_results = []
  · have hEq := afterAnalyzer_of_empty env t hA
    have hgs : (graphFinal env q).status = "error" := by rw [hgf, hEq]
    have hrun_eq : run_state env q = graphFinal env q := by
      simp only [run_state, markCompleted]
      rw [if_neg (by simp [hgs])]
    constructor
    · intro hc
      rw [hrun_eq, hgs] at hc
      exact absurd hc (by decide)
    · rw [hrun_eq, hgs]
      decide
  · have hEq := afterAnalyzer_of_nonempty env t hA
    have hgs : (graphFinal env q).status = "pending" := by
      rw [hgf, hEq]
      exact hst
    have hrun_eq : run_state env q
        = { graphFinal env q with status := "completed" } := by
      simp only [run_state, markCompleted]
      rw [if_pos (by rw [hgs]; decide)]
    constructor
    · intro _
      constructor
      · show (run_state env q).final_report ≠ ""
        rw [hrun_eq]
        show (graphFinal env q).final_report ≠ ""
        rw [hgf, hEq]
        exact reportText_ne_empty _
      · rw [hrun_eq]
        show (graphFinal env q).error = none
        rw [hgf, hEq]
        exact he
    · constructor
      · intro _
        rw [hgs]
        decide
      · intro _
        rw [hrun_eq]

/-- C4: a run whose final status is `completed` has a non-empty
`final_report` and an unset `error`; and `run_state` marks the status
`completed` exactly when the graph execution did not end with status
`error` (only the analyzer stage ever sets it). -/
theorem c4_completed_means_report (env : Env) (q : String) :
    ((run_state env q).status = "completed" →
        (run_state env q).final_report ≠ "" ∧ (run_state env q).error = none) ∧
    ((run_state env q).status = "completed" ↔ (graphFinal env q).status ≠ "error") := by
  have hgf : graphFinal env q
      = afterAnalyzer env
          (if route_after_search (searchCall env (plannerNode env (initState q)))
              = "retry_search"
            then searchCall env (searchCall env (plannerNode env (initState q)))
            else searchCall env (plannerNode env (initState q))) := by
    rw [graphFinal_def, graphFinal_eq_runPath, ← runPath_def]
  have hst : (if route_after_search (searchCall env (plannerNode env (initState q)))
        = "retry_search"
      then searchCall env (searchCall env (plannerNode env (initState q)))
      else searchCall env (plannerNode env (initState q))).status = "pending" := by
    split
    · rw [searchCall_status, searchCall_status]
      rfl
    · rw [searchCall_status]
      rfl
  have he : (if route_after_search (searchCall env (plannerNode env (initState q)))
        = "retry_search"
      then searchCall env (searchCall env (plannerNode env (initState q)))
      else searchCall env (plannerNode env (initState q))).error = none := by
    split
    · rw [searchCall_error, searchCall_error]
      rfl
    · rw [searchCall_error]
      rfl
  exact run_state_cases env q _ hgf hst he

/-- Witness for C4: on the all-successful environment the run completes,
so the final report is non-empty and the error is unset. -/
theorem c4_witness :
    (run_state envComplete "q").final_report ≠ ""
    ∧ (run_state envComplete "q").error = none :=
  (c4_completed_means_report envComplete "q").1 (by decide)

theorem plan_obj_components (q : String) (kvs : List (String × PyJson))
    (brt bsq bst : Bool)
    (hrt : pyAllStr (orEmptyList (pyGet kvs "research_topics")) = some brt)
    (hsq : pyAllStr (orEmptyList (pyGet kvs "search_queries")) = some bsq)
    (hst : pyAllStr (orEmptyList (pyGet kvs "analysis_steps")) = some bst) :
    plan q (some (PyJson.obj kvs))
      = ⟨if brt then orEmptyList (pyGet kvs "research_topics") else PyJson.arr [PyJson.str q],
         if bsq then orEmptyList (pyGet kvs "search_queries") else PyJson.arr [PyJson.str q],
         if bst then orEmptyList (pyGet kvs "analysis_steps") else defaultSteps⟩ := by
  simp only [plan]
  rw [hrt, hsq, hst]
  rfl

/-- C5 (amended): `PlannerAgent.plan` returns the full default plan when
the model response is not valid JSON, when its top level is not an
object, or when any of the three fields holds a truthy non-iterable
value (a number or `true`, which makes that `all(...)` check raise
`TypeError`); otherwise each field is handled independently: a missing
or falsy field yields the empty list — not the default — a field whose
value passes the all-strings element check is kept as is, and a field
failing the element check is replaced by that field's default value
alone. -/
theorem c5_planner_fallback :
    (∀ q : String, plan q none = defaultPlan q) ∧
    (∀ (q : String) (d : PyJson), pyIsDict d = false → plan q (some d) = defaultPlan q) ∧
    (∀ (q : String) (kvs : List (String × PyJson)),
        pyAllStr (orEmptyList (pyGet kvs "research_topics")) = none →
        plan q (some (PyJson.obj kvs)) = defaultPlan q) ∧
    (∀ (q : String) (kvs : List (String × PyJson)),
        pyAllStr (orEmptyList (pyGet kvs "search_queries")) = none →
        plan q (some (PyJson.obj kvs)) = defaultPlan q) ∧
    (∀ (q : String) (kvs : List (String × PyJson)),
        pyAllStr (orEmptyList (pyGet kvs "analysis_steps")) = none →
        plan q (some (PyJson.obj kvs)) = defaultPlan q) ∧
    (∀ (q : String) (kvs : List (String × PyJson)) (brt bsq bst : Bool),
        pyAllStr (orEmptyList (pyGet kvs "research_topics")) = some brt →
        pyAllStr (orEmptyList (pyGet kvs "search_queries")) = some bsq →
        pyAllStr (orEmptyList (pyGet kvs "analysis_steps")) = some bst →
        (plan q (some (PyJson.obj kvs))).research_topics
            = (if brt then orEmptyList (pyGet kvs "research_topics")
              else PyJson.arr [PyJson.str q]) ∧
        (plan q (some (PyJson.obj kvs))).search_queries
            = (if bsq then orEmptyList (pyGet kvs "search_queries")
              else PyJson.arr [PyJson.str q]) ∧
        (plan q (some (PyJson.obj kvs))).analysis_steps
            = (if bst then orEmptyList (pyGet kvs "analysis_steps") else defaultSteps)) ∧
    (∀ (q : String) (kvs : List (String × PyJson)),
        orEmptyList (pyGet kvs "research_topics") = PyJson.arr [] →
        pyAllStr (orEmptyList (pyGet kvs "search_queries")) ≠ none →
        pyAllStr (orEmptyList (pyGet kvs "analysis_steps")) ≠ none →
        (plan q (some (PyJson.obj kvs))).research_topics = PyJson.arr []) ∧
    (∀ (q : String) (kvs : List (String × PyJson)),
        orEmptyList (pyGet kvs "search_queries") = PyJson.arr [] →
        pyAllStr (orEmptyList (pyGet kvs "research_topics")) ≠ none →
        pyAllStr (orEmptyList (pyGet kvs "analysis_steps")) ≠ none →
        (plan q (some (PyJson.obj kvs))).search_queries = PyJson.arr []) ∧
    (∀ (q : String) (kvs : List (String × PyJson)),
        orEmptyList (pyGet kvs "analysis_steps") = PyJson.arr [] →
        pyAllStr (orEmptyList (pyGet kvs "research_topics")) ≠ none →
        pyAllStr (orEmptyList (pyGet kvs "search_queries")) ≠ none →
        (plan q (some (PyJson.obj kvs))).analysis_steps = PyJson.arr []) ∧
    (∀ q : String, plan q (some (PyJson.obj []))
        = ⟨PyJson.arr [], PyJson.arr [], PyJson.arr []⟩) := by
  refine ⟨fun q => rfl, ?_, ?_, ?_, ?_, ?_, ?_, ?_, ?_, fun q => rfl⟩
  · intro q d hd
    cases d
    case obj kvs => simp [pyIsDict] at hd
    all_goals rfl
  · intro q kvs h
    simp only [plan]
    rw [h]
    rfl
  · intro q kvs h
    simp only [plan]
    rcases hrt : pyAllStr (orEmptyList (pyGet kvs "research_topics")) with _ | brt
    · rfl
    · rw [h]
      rfl
  · intro q kvs h
    simp only [plan]
    rcases hrt : pyAllStr (orEmptyList (pyGet kvs "research_topics")) with _ | brt
    · rfl
    · rcases hsq : pyAllStr (orEmptyList (pyGet kvs "search_queries")) with _ | bsq
      · rfl
      · rw [h]
        rfl
  · intro q kvs brt bsq bst hrt hsq hst
    rw [plan_obj_components q kvs brt bsq bst hrt hsq hst]
    exact ⟨rfl, rfl, rfl⟩
  · intro q kvs hm hsq hst
    rcases hosq : pyAllStr (orEmptyList (pyGet kvs "search_queries")) with _ | bsq
    · exact absurd hosq hsq
    · rcases host : pyAllStr (orEmptyList (pyGet kvs "analysis_steps")) with _ | bst
      · exact absurd host hst
      · have hrt : pyAllStr (orEmptyList (pyGet kvs "research_topics")) = some true := by
          rw [hm]
          rfl
        rw [plan_obj_components q kvs true bsq bst hrt hosq host]
        exact hm
  · intro q kvs hm hrt hst
    rcases hort : pyAllStr (orEmptyList (pyGet kvs "research_topics")) with _ | brt
    · exact absurd hort hrt
    · rcases host : pyAllStr (orEmptyList (pyGet kvs "analysis_steps")) with _ | bst
      · exact absurd host hst
      · have hsq : pyAllStr (orEmptyList (pyGet kvs "search_queries")) = some true := by
          rw [hm]
          rfl
        rw [plan_obj_components q kvs brt true bst hort hsq host]
        exact hm
  · intro q kvs hm hrt hsq
    rcases hort : pyAllStr (orEmptyList (pyGet kvs "research_topics")) with _ | brt
    · exact absurd hort hrt
    · rcases hosq : pyAllStr (orEmptyList (pyGet kvs "search_queries")) with _ | bsq
      · exact absurd hosq hsq
      · have hst : pyAllStr (orEmptyList (pyGet kvs "analysis_steps")) = some true := by
          rw [hm]
          rfl
        rw [plan_obj_components q kvs brt bsq true hort hosq hst]
        exact hm

/-- C5 fails as stated: on the valid JSON object response `{}` (all
three fields missing), `plan` returns three empty lists, not the default
plan; and on a response whose `research_topics` is `[1]` (not a list of
strings), only that field takes its default — the result is still not
the full default plan. -/
theorem c5_counterexample :
    plan "q" (some (PyJson.obj [])) ≠ defaultPlan "q" ∧
    plan "q" (some (PyJson.obj [("research_topics", PyJson.arr [PyJson.num 1])]))
      ≠ defaultPlan "q" := by
  constructor
  · intro h
    have h1 : PyJson.arr [] = PyJson.arr [PyJson.str "q"] :=
      congrArg PlanOut.research_topics h
    injection h1 with h2
    simp at h2
  · intro h
    have h1 : PyJson.arr [] = PyJson.arr [PyJson.str "q"] :=
      congrArg PlanOut.search_queries h
    injection h1 with h2
    simp at h2

/-- Witness for C5 (amended): the default plan on a non-object response
and on a number in each of the three fields; field-wise behaviour on a
bad `research_topics` list, a good `search_queries` list, and a falsy
`analysis_steps` value. -/
theorem c5_witness :
    plan "q" (some (PyJson.str "x")) = defaultPlan "q" ∧
    plan "q" (some (PyJson.obj [("research_topics", PyJson.num 1)])) = defaultPlan "q" ∧
    plan "q" (some (PyJson.obj [("search_queries", PyJson.num 1)])) = defaultPlan "q" ∧
    plan "q" (some (PyJson.obj [("analysis_steps", PyJson.boolean true)])) = defaultPlan "q" ∧
    (plan "q" (some (PyJson.obj [("research_topics", PyJson.arr [PyJson.num 1])]))).research_topics
      = PyJson.arr [PyJson.str "q"] ∧
    (plan "q" (some (PyJson.obj [("search_queries",
        PyJson.arr [PyJson.str "a"])]))).search_queries = PyJson.arr [PyJson.str "a"] ∧
    (plan "q" (some (PyJson.obj [("analysis_steps", PyJson.boolean false)]))).analysis_steps
      = PyJson.arr [] :=
  ⟨c5_planner_fallback.2.1 "q" (PyJson.str "x") rfl,
   c5_planner_fallback.2.2.1 "q" [("research_topics", PyJson.num 1)] (by decide),
   c5_planner_fallback.2.2.2.1 "q" [("search_queries", PyJson.num 1)] (by decide),
   c5_planner_fallback.2.2.2.2.1 "q" [("analysis_steps", PyJson.boolean true)] (by decide),
   (c5_planner_fallback.2.2.2.2.2.1 "q" [("research_topics", PyJson.arr [PyJson.num 1])]
      false true true (by decide) (by decide) (by decide)).1,
   (c5_planner_fallback.2.2.2.2.2.1 "q" [("search_queries", PyJson.arr [PyJson.str "a"])]
      true true true (by decide) (by decide) (by decide)).2.1,
   c5_planner_fallback.2.2.2.2.2.2.2.2.1 "q" [("analysis_steps", PyJson.boolean false)]
     rfl (by decide) (by decide)⟩

/-- C8: the references list built by `generate_report` renders exactly
the first-seen-order deduplication of the `(title, url)` pairs of
`search_results`: each distinct pair appears at most once, at the
position of its first occurrence, even when `search_results` contains
duplicates. -/
theorem c8_references_no_duplicates (results : List SearchResult) :
    referenceLines results = (dedupFirstSeen (results.map refKey)).map refLine ∧
    (dedupFirstSeen (results.map refKey)).Nodup := by
  refine ⟨?_, dedupFirstSeen_nodup _⟩
  unfold referenceLines
  rw [buildRefKeys_eq]
  congr 1
  exact List.filter_eq_self.mpr (fun a _ => by simp)

/-- C9: whatever the URL-loading/indexing side effect does (raises, or
loads any documents into the vector store `vs`), the research state
returned by the search stage is exactly the state of the stage with the
indexing step skipped — same `search_results`, same `status`, same
`error`; an indexing failure never halts the stage. -/
theorem c9_indexing_never_alters_state (env : Env) (s : ResearchState) (vs : List String) :
    (searchCallVS env s vs).1 = searchStageSkipIndexing env s :=
  searchCallVS_fst env s vs

theorem markCompleted_status (s : ResearchState) :
    (markCompleted s).status = "completed" ∨ (markCompleted s).status = "error" := by
  unfold markCompleted
  split
  · exact Or.inl rfl
  · next h => exact Or.inr (not_not.mp h)

/-- C6 fails as stated: a dict on which pydantic validation raises has
its `ResearchState(**final_state)` call outside the `try/except`
(`orchestrator.py` dict branch), so the exception escapes `run_state`
unhandled instead of becoming the generic error state. -/
theorem c6_counterexample :
    run_state_from "q" (GraphOutput.dict none) = Except.error () := rfl

/-- C6 (amended): `run_state` returns without raising on the state model
itself, on every dict that validates, and on every other-shaped value —
the uncoercible one yields the generic decode-error state (status
`error`, fixed message, all other fields at their defaults) — and every
returned state has status `completed` or `error`; but a dict that fails
validation is the one shape on which an exception escapes unhandled. -/
theorem c6_run_state_decode :
    (∀ q : String, run_state_from q (GraphOutput.other none)
        = Except.ok { user_query := q, status := "error", error := some decodeMsg }) ∧
    (∀ (q : String) (out : GraphOutput),
        run_state_from q out = Except.error () ↔ out = GraphOutput.dict none) ∧
    (∀ (q : String) (out : GraphOutput) (s : ResearchState),
        run_state_from q out = Except.ok s →
        s.status = "completed" ∨ s.status = "error") := by
  refine ⟨fun q => rfl, ?_, ?_⟩
  · intro q out
    cases out with
    | state s => simp [run_state_from]
    | dict v => cases v <;> simp [run_state_from]
    | other v => cases v <;> simp [run_state_from]
  · intro q out s h
    cases out with
    | state s0 =>
      injection h with h'
      rw [← h']
      exact markCompleted_status s0
    | dict v =>
      cases v with
      | none => exact Except.noConfusion h
      | some s0 =>
        injection h with h'
        rw [← h']
        exact markCompleted_status s0
    | other v =>
      cases v with
      | none =>
        injection h with h'
        rw [← h']
        exact Or.inr rfl
      | some s0 =>
        injection h with h'
        rw [← h']
        exact markCompleted_status s0

/-- Witness for C6 (amended): the ok-path characterization applied to a
decoded state and to a validated dict. -/
theorem c6_witness :
    ((markCompleted (initState "q")).status = "completed"
      ∨ (markCompleted (initState "q")).status = "error") ∧
    ((markCompleted { initState "w" with status := "error" }).status = "completed"
      ∨ (markCompleted { initState "w" with status := "error" }).status = "error") :=
  ⟨c6_run_state_decode.2.2 "q" (GraphOutput.state (initState "q")) _ rfl,
   c6_run_state_decode.2.2 "w" (GraphOutput.dict (some { initState "w" with status := "error" }))
     _ rfl⟩

/-- C10: `WebSearchTool.search` falls back to exactly `min k 3` mock
records when the API key is unset, when the HTTP request raises, and when
the provider returns zero usable results (3 records at the default
`k = 5`); it never returns an empty list at `k = 5`, so a search stage
built on it always produces non-empty `search_results` and the
orchestrator's retry edge is never taken. -/
theorem c10_search_never_empty :
    (∀ (out : HttpOutcome) (q : String) (k : Nat),
        webSearch none out q k = mockResults q (min k 3)) ∧
    (∀ (key : String) (q : String) (k : Nat),
        webSearch (some key) HttpOutcome.raises q k = mockResults q (min k 3)) ∧
    (∀ (key : Option String) (q : String) (k : Nat),
        webSearch key (HttpOutcome.returns []) q k = mockResults q (min k 3)) ∧
    (∀ q : String, (mockResults q (min 5 3)).length = 3) ∧
    (∀ (key : Option String) (out : HttpOutcome) (q : String),
        webSearch key out q 5 ≠ []) ∧
    (∀ (key : Option String) (outs : Nat → Nat → String → HttpOutcome) (base : Env)
        (s : ResearchState),
        (searchCall { base with searchFn := fun a i q => webSearch key (outs a i q) q 5 } s).search_results
          ≠ []
        ∧ route_after_search
            (searchCall { base with searchFn := fun a i q => webSearch key (outs a i q) q 5 } s)
          = "to_analyzer") := by
  refine ⟨fun out q k => rfl, ?_, ?_, fun q => rfl, webSearch_ne_nil, ?_⟩
  · intro key q k
    unfold webSearch
    dsimp only
    split <;> rfl
  · intro key q k
    match key with
    | none => rfl
    | some key =>
      unfold webSearch
      dsimp only
      split
      · rfl
      · simp [List.take_nil]
  · intro key outs base s
    have hne : (searchCall { base with searchFn := fun a i q => webSearch key (outs a i q) q 5 } s).search_results ≠ [] := by
      rw [searchCall_eq_skip]
      show run_searches _ (s.search_attempts + 1) 0
          (if s.search_queries = [] then [s.user_query] else s.search_queries) ≠ []
      have hqne : (if s.search_queries = [] then [s.user_query] else s.search_queries) ≠ [] := by
        split
        · exact List.cons_ne_nil _ _
        · assumption
      cases hl : (if s.search_queries = [] then [s.user_query] else s.search_queries) with
      | nil => exact absurd hl hqne
      | cons q0 rest =>
        simp only [run_searches]
        intro happ
        exact webSearch_ne_nil key (outs (s.search_attempts + 1) 0 q0) q0
          (List.append_eq_nil.mp happ).1
    refine ⟨hne, ?_⟩
    unfold route_after_search
    rw [if_neg]
    rintro ⟨h1, _⟩
    exact hne h1

end Orchestra
